import Mathlib

/-!
LapBook — Library & Reading-State Manager: shallow embedding.

A shallow embedding of the renderer's library-management, progress-tracking,
highlight, settings and resume logic (src/unnamed/part_003, part_004,
src/settings.js), with theorems settling the frozen claims about it.

Conventions of the embedding:
* JS strings are Lean `String`s; JS `x || d` on strings (empty string is
  falsy) is `jsOrStr`; `undefined`/`null` are `Option.none`.
* JS numbers appearing as percentages are `ℚ`; `Math.round` is `jsRound`
  (round half toward positive infinity); page counts are `Nat`/`Int`.
* The single-threaded event loop with `setTimeout`/`clearTimeout` is modelled
  as an explicit state machine over a discrete timeline (`DebounceState`).
* Mutation of the global `library` array is explicit state passing on
  `List LibraryEntry`.
-/

namespace LapBook

/-- JS `x || d` for strings: the empty string is falsy, so it is replaced by
the default `d`. Used by `saveEditedBook` (`value || 'Unknown Title'`). -/
def jsOrStr (v d : String) : String := if v = "" then d else v

/-- JS `x || d` where `x` is possibly-`undefined` string-valued field:
`undefined` and `""` are falsy. Models `metadata.title || 'unknown'` etc. -/
def jsOrOptStr (v : Option String) (d : String) : String :=
  match v with
  | none => d
  | some s => jsOrStr s d

/-- JS `Math.round`: rounds half toward positive infinity. -/
def jsRound (q : ℚ) : ℤ := ⌊q + 1/2⌋

/-- Model of `.toLowerCase()`, per character. -/
def jsToLowerCase (s : String) : String :=
  String.mk (s.data.map Char.toLower)

/-- Model of JS `String.prototype.split('.')`: splits on every dot, keeping
empty segments (`'a.'.split('.')` is `['a', '']`, `'abc'.split('.')` is
`['abc']`). -/
def splitDots : List Char → List (List Char)
  | [] => [[]]
  | c :: cs =>
    match splitDots cs with
    | [] => [[]]
    | seg :: rest => if c = '.' then [] :: seg :: rest else (c :: seg) :: rest

/-- Model of `filePath.split('.').pop().toLowerCase()` — the extension used by
both `loadBook` (part_004 line 344) and `addBookToLibrary` (part_004 line
2027). JS `split` always yields at least one element, and `pop` takes the
last. -/
def extensionOf (filePath : String) : String :=
  jsToLowerCase (String.mk ((splitDots filePath.data).getLastD []))

/-- The file-type classifier in `addBookToLibrary` (part_004 lines 2026-2029):
`fileType = extension === 'pdf' ? 'pdf' : 'epub'`. -/
def classifyFileType (filePath : String) : String :=
  if extensionOf filePath = "pdf" then "pdf" else "epub"

/-- The two rendering engines. -/
inductive Engine
  | pdf
  | epub
deriving DecidableEq, Repr

/-- The dispatch in `loadBook` (part_004 lines 336-358): `'pdf'` goes to
`loadPDF`, `'epub'` to `loadEPUB`, and any other extension throws
`Unsupported file format`. -/
def loadBook (filePath : String) : Except String Engine :=
  let extension := extensionOf filePath
  if extension = "pdf" then Except.ok Engine.pdf
  else if extension = "epub" then Except.ok Engine.epub
  else Except.error "Unsupported file format. Only EPUB and PDF files are supported."

/-- One entry of the persisted library index (part_004 lines 2124-2136). -/
structure LibraryEntry where
  id : String
  path : String
  title : String
  author : String
  fileType : String
  coverPath : Option String
  addedDate : String
  lastOpened : Option String
  lastPosition : Option String
  progress : ℤ
deriving DecidableEq, Repr

/-- The data `addBookToLibrary` computes from the engines before building a
new entry (metadata extraction, cover extraction, id generation). -/
structure BookMeta where
  bookId : String
  title : String
  author : String
  fileType : String
  coverPath : Option String
  addedDate : String
deriving DecidableEq, Repr

/-- The fresh entry `addBookToLibrary` constructs (part_004 lines 2124-2136):
`lastOpened`, `lastPosition` start `null` and `progress` starts `0`. -/
def newLibraryEntry (filePath : String) (m : BookMeta) : LibraryEntry :=
  { id := m.bookId
    path := filePath
    title := m.title
    author := m.author
    fileType := m.fileType
    coverPath := m.coverPath
    addedDate := m.addedDate
    lastOpened := none
    lastPosition := none
    progress := 0 }

/-- Effect of `addBookToLibrary` on the library index (part_004 lines
2031-2041 and 2124-2140): if `library.find(b => b.path === filePath)` hits,
the function returns without touching the index; otherwise the new entry is
`unshift`ed to the front. -/
def addBookToLibrary (library : List LibraryEntry) (filePath : String)
    (m : BookMeta) : List LibraryEntry :=
  match library.find? (fun b => b.path == filePath) with
  | some _ => library
  | none => newLibraryEntry filePath m :: library

/-- The id associated to a path in the index: `library.find(b => b.path ===
filePath)` followed by reading `.id`. -/
def libraryIdFor (library : List LibraryEntry) (filePath : String) : Option String :=
  (library.find? (fun b => b.path == filePath)).map (fun b => b.id)

/-- The one-entry-per-path invariant: no two entries of the index share a
path. -/
def pathUnique (library : List LibraryEntry) : Prop :=
  library.Pairwise (fun a b => a.path ≠ b.path)

/-- Model of `library.find(...)` followed by in-place mutation of the found object:
replaces the first element satisfying `p` by its image under `f`, leaving
everything else untouched. -/
def updateFirst (p : α → Bool) (f : α → α) : List α → List α
  | [] => []
  | x :: xs => if p x then f x :: xs else x :: updateFirst p f xs

/-- The part of an epub.js `location.start` object that `onLocationChange`
reads: `cfi` and `percentage` (possibly `undefined`, hence `Option`). -/
structure LocationStart where
  cfi : String
  percentage : Option ℚ
deriving DecidableEq

/-- Progress computation in `onLocationChange` (part_004 line 884):
`Math.round((location.start.percentage || 0) * 100)` — note: rounded but
not clamped. -/
def progressOf (percentage : Option ℚ) : ℤ :=
  jsRound ((percentage.getD 0) * 100)

/-- Effect of `onLocationChange` on the library index (part_004 lines
879-888): find the entry for `currentBookPath` and set its `lastPosition`
to the event's cfi and its `progress` to the rounded percentage. (The
debounced `saveLibrary` scheduling is modelled separately by
`DebounceState`.) -/
def onLocationChange (library : List LibraryEntry) (currentBookPath : String)
    (loc : LocationStart) : List LibraryEntry :=
  updateFirst (fun b => b.path == currentBookPath)
    (fun b => { b with
      lastPosition := some loc.cfi
      progress := progressOf loc.percentage })
    library

/-- Model of `.replace(/[^a-zA-Z0-9]/g, '-')`: every character outside `a-zA-Z0-9`
is replaced by its own `'-'` (the regex has no `+`, so runs are not
collapsed). `Char.isAlphanum` is exactly ASCII `a-zA-Z0-9`. -/
def jsReplaceNonAlnum (s : String) : String :=
  String.mk (s.data.map (fun c => if c.isAlphanum then c else '-'))

/-- The fallback slug used by `generateBookIdentifier` (part_004 line 1589)
and `addBookToLibrary` (lines 2055, 2069):
`template(title, "-", author).replace(/[^a-zA-Z0-9]/g, '-').toLowerCase()`
where `template` is JS template-string concatenation. -/
def slugId (title author : String) : String :=
  jsToLowerCase (jsReplaceNonAlnum (title ++ "-" ++ author))

/-- The metadata object epub.js reports (`book.loaded.metadata`): fields may
be missing or empty strings. -/
structure EpubMetadata where
  identifier : Option String
  title : Option String
  creator : Option String
deriving DecidableEq

/-- JS truthiness test for a possibly-missing string (`if (metadata.identifier)`):
`undefined` and `""` are falsy. -/
def jsTruthyStr : Option String → Bool
  | none => false
  | some s => s != ""

/-- Model of `generateBookIdentifier` (part_004 lines 1577-1593). `metadata = none`
models the catch branch (metadata extraction threw), which falls back to
`'unknown-book-' + Date.now()`; on success the result depends on the
metadata alone. `now` is the value of `Date.now()`. -/
def generateBookIdentifier (metadata : Option EpubMetadata) (now : ℕ) : String :=
  match metadata with
  | none => "unknown-book-" ++ toString now
  | some md =>
    if jsTruthyStr md.identifier then md.identifier.getD ""
    else slugId (jsOrOptStr md.title "unknown") (jsOrOptStr md.creator "unknown")

/-- Effect of `saveEditedBook` (part_004 lines 2182-2197) on the index:
requires a book currently being edited and present in the index; overwrites
`title`/`author` with the dialog inputs, each replaced by an `Unknown`
default when empty (`value || 'Unknown Title'`). The `Bool` records whether
`saveLibrary()` was invoked. -/
def saveEditedBook (library : List LibraryEntry) (editingBookId : Option String)
    (titleInput authorInput : String) : List LibraryEntry × Bool :=
  match editingBookId with
  | none => (library, false)
  | some bid =>
    match library.find? (fun b => b.id == bid) with
    | none => (library, false)
    | some _ =>
      (updateFirst (fun b => b.id == bid)
        (fun b => { b with
          title := jsOrStr titleInput "Unknown Title"
          author := jsOrStr authorInput "Unknown Author" })
        library, true)

/-! Debounced persistence (part_004 lines 885-890).

`onLocationChange` schedules `saveLibrary` with
`clearTimeout(window.librarySaveTimeout);
 window.librarySaveTimeout = setTimeout(() => saveLibrary(), 2000)`.
The single-threaded event loop is modelled on a discrete timeline: a state
carries the in-memory library, the deadline of the pending timer (if any),
and the list of disk writes performed so far (most recent first). A pending
timer whose deadline has been reached fires before any later event is
handled. -/

/-- State of the renderer between events: in-memory value, pending
`setTimeout` deadline, disk writes so far (most recent first). -/
structure DebounceState (σ : Type) where
  lib : σ
  deadline : Option ℕ
  writes : List σ
deriving DecidableEq

/-- Fires the pending timer if its deadline is at or before `t` (the event
loop runs due timers before handling an event at time `t`): `saveLibrary`
writes the current in-memory library. -/
def fireIfDue (t : ℕ) (s : DebounceState σ) : DebounceState σ :=
  match s.deadline with
  | some d => if d ≤ t then { s with deadline := none, writes := s.lib :: s.writes } else s
  | none => s

/-- Handling one location-change event at time `t` with library update
`upd`: any due timer fires first; then the entry is mutated
(`book.lastPosition = ...`), the pending timer is cancelled
(`clearTimeout`) and a fresh one is scheduled `quiet` ms out
(`setTimeout(..., 2000)`). -/
def recordEvent (quiet t : ℕ) (upd : σ → σ) (s : DebounceState σ) : DebounceState σ :=
  let s := fireIfDue t s
  { s with lib := upd s.lib, deadline := some (t + quiet) }

/-- Runs a finite burst of events (time, update), then lets all remaining
time elapse so the trailing timer, if any, fires. -/
def runBurst (quiet : ℕ) (s0 : σ) (events : List (ℕ × (σ → σ))) : DebounceState σ :=
  let s := events.foldl (fun s e => recordEvent quiet e.1 e.2 s) ⟨s0, none, []⟩
  match s.deadline with
  | some _ => { s with deadline := none, writes := s.lib :: s.writes }
  | none => s

/-- Specialisation to the program: a burst of epub.js location-change events
for the book at `path`, each handled by `onLocationChange`, with the
source's 2000 ms quiet window. -/
def locationBurst (path : String) (s0 : List LibraryEntry)
    (events : List (ℕ × LocationStart)) : DebounceState (List LibraryEntry) :=
  runBurst 2000 s0 (events.map (fun e => (e.1, fun lib => onLocationChange lib path e.2)))

/-! Highlights (part_004 lines 1951-1965). -/

/-- One highlight record, as created by the highlight action and stored in
the per-book JSON set. -/
structure Highlight where
  id : String
  cfiRange : String
  text : String
  color : String
  note : Option String
  created : ℕ
deriving DecidableEq, Repr

/-- In-memory highlight state: the `highlights` array plus the sets passed
to `saveHighlightsToFile` so far (most recent first). -/
structure HighlightsState where
  highlights : List Highlight
  saves : List (List Highlight)
deriving DecidableEq

/-- Data effect of `deleteHighlight` once the user confirms the dialog
(part_004 lines 1951-1965): `highlights = highlights.filter(h => h.id !==
highlightId)` followed unconditionally by `saveHighlightsToFile()`. -/
def deleteHighlight (st : HighlightsState) (highlightId : String) : HighlightsState :=
  let hs := st.highlights.filter (fun h => h.id != highlightId)
  { highlights := hs, saves := hs :: st.saves }

/-! Settings (src/settings.js lines 27-39).

A JS object is modelled by its key/value entries with first-match lookup;
values are kept abstract in a type `α`. -/

/-- Lookup of a key in a JS object modelled as an entry list. -/
def jsLookup (o : List (String × α)) (k : String) : Option α :=
  (o.find? (fun p => p.1 == k)).map (fun p => p.2)

/-- Spread merge of two objects, lookup-faithful model of
`{ ...a, ...b }`: a key defined in `b` takes `b`'s value; a key defined
only in `a` keeps `a`'s value; keys of `b` absent from `a` are retained. -/
def spreadMerge (a b : List (String × α)) : List (String × α) :=
  a.filter (fun p => (jsLookup b p.1).isNone) ++ b

/-- Result of `SettingsManager.load` (src/settings.js lines 27-39). The
manager starts with `settings = { ...defaults }`; `loadResult` is the
outcome of `window.electronAPI.loadSettings()`: an exception (`Except.error`),
a falsy value (`Except.ok none` — settings left as they are), or a stored
object (`Except.ok (some saved)` — merged over the defaults). The catch
branch returns the current settings, which at startup are the defaults. -/
def settingsLoad (defaults : List (String × α))
    (loadResult : Except Unit (Option (List (String × α)))) : List (String × α) :=
  match loadResult with
  | Except.error _ => defaults
  | Except.ok none => defaults
  | Except.ok (some saved) => spreadMerge defaults saved

/-! PDF resume (part_004 lines 2230-2241, part_003 lines 41-46 and 134-138). -/

/-- Model of JS `parseInt(s)` (radix 10) restricted to what reaches it here:
an optional sign followed by a longest digit run; `none` models `NaN`.
(Real `parseInt` also skips leading whitespace; the strings stored in
`lastPosition` for PDFs are bare page numbers, so this does not matter.) -/
def jsParseInt (s : String) : Option ℤ :=
  let signed : ℤ × List Char :=
    match s.data with
    | '-' :: r => (-1, r)
    | '+' :: r => (1, r)
    | r => (1, r)
  let ds := signed.2.takeWhile Char.isDigit
  if ds.isEmpty then none
  else some (signed.1 * (ds.foldl (fun n c => 10 * n + (c.toNat - '0'.toNat)) 0 : ℕ))

/-- Model of `PDFViewer.goToPage` (part_003 lines 134-138): renders `pageNum`
only when `pageNum >= 1 && pageNum <= this.totalPages`, else the current
page is unchanged. -/
def goToPage (currentPage totalPages : ℕ) (pageNum : ℤ) : ℕ :=
  if 1 ≤ pageNum ∧ pageNum ≤ (totalPages : ℤ) then pageNum.toNat else currentPage

/-- Page shown after `openBookFromLibrary` resumes a PDF entry (part_004
lines 2230-2241): `loadPDF` leaves the viewer at page 1 (part_003 lines
41-46); if `book.lastPosition` is truthy, `parseInt` is applied and
`goToPage` is called only when the result is `> 0` (`NaN > 0` is false). -/
def resumePdfPage (lastPosition : Option String) (totalPages : ℕ) : ℕ :=
  let start := 1
  match lastPosition with
  | none => start
  | some lp =>
    if lp = "" then start
    else
      match jsParseInt lp with
      | none => start
      | some pageNum => if 0 < pageNum then goToPage start totalPages pageNum else start

/-! Spec-side definition used only to compare against the code's slug. -/

/-- Collapses every run of consecutive separators into a single one. -/
def collapseSep : List Char → List Char
  | [] => []
  | [c] => [c]
  | c :: d :: cs =>
    if c = '-' ∧ d = '-' then collapseSep (d :: cs) else c :: collapseSep (d :: cs)

/-- Slug as the spec words it: lowercase, then replace every maximal run of
consecutive non-alphanumeric characters with a single separator. Stated via
the code's per-character replacement followed by run collapsing, which is
exactly run replacement. -/
def specSlug (title author : String) : String :=
  String.mk (collapseSep (jsToLowerCase (jsReplaceNonAlnum (title ++ "-" ++ author))).data)

/-! Sample data for concrete instantiations. -/

/-- Sample library entry for the path `/books/a.epub`. -/
def sampleEntryA : LibraryEntry :=
  { id := "isbn123"
    path := "/books/a.epub"
    title := "Foo"
    author := "Bar"
    fileType := "epub"
    coverPath := none
    addedDate := "2024-01-01T00:00:00.000Z"
    lastOpened := none
    lastPosition := none
    progress := 0 }

/-- Sample metadata for a second add of the same path. -/
def sampleMeta : BookMeta :=
  { bookId := "isbn999"
    title := "Foo2"
    author := "Bar2"
    fileType := "epub"
    coverPath := none
    addedDate := "2024-02-02T00:00:00.000Z" }

/-- Sample highlight. -/
def sampleHighlight : Highlight :=
  { id := "1700000000000"
    cfiRange := "epubcfi(/6/4!/4/2,/1:0,/1:10)"
    text := "some text"
    color := "yellow"
    note := none
    created := 1700000000000 }

/-! Helper lemmas shared by several claims. -/

/-- Decomposition of a list along the first element found by `find?`, and
the effect of `updateFirst` on it. -/
theorem updateFirst_decomp {β : Type} (p : β → Bool) (f : β → β) (l : List β) (x : β)
    (h : l.find? p = some x) :
    ∃ l1 l2, l = l1 ++ x :: l2 ∧ (∀ y ∈ l1, p y = false) ∧
      updateFirst p f l = l1 ++ f x :: l2 := by
  induction l with
  | nil => simp [List.find?] at h
  | cons a l ih =>
    cases ha : p a with
    | true =>
      simp only [List.find?, ha] at h
      obtain rfl : a = x := Option.some.inj h
      exact ⟨[], l, rfl, by simp, by simp [updateFirst, ha]⟩
    | false =>
      simp only [List.find?, ha] at h
      obtain ⟨l1, l2, rfl, hl1, hu⟩ := ih h
      refine ⟨a :: l1, l2, rfl, ?_, ?_⟩
      · intro y hy
        rcases List.mem_cons.mp hy with rfl | hy'
        · exact ha
        · exact hl1 y hy'
      · simp [updateFirst, ha, hu]

/-- When nothing matches, `updateFirst` is the identity. -/
theorem updateFirst_eq_of_find?_none {β : Type} (p : β → Bool) (f : β → β) (l : List β)
    (h : l.find? p = none) : updateFirst p f l = l := by
  induction l with
  | nil => rfl
  | cons a l ih =>
    cases ha : p a with
    | true => simp [List.find?, ha] at h
    | false =>
      simp only [List.find?, ha] at h
      simp [updateFirst, ha, ih h]

/-- A member satisfying the predicate makes `find?` succeed. -/
theorem find?_isSome_of_mem {β : Type} (p : β → Bool) (l : List β) (x : β)
    (hx : x ∈ l) (hp : p x = true) : ∃ y, l.find? p = some y := by
  cases hfind : l.find? p with
  | some y => exact ⟨y, rfl⟩
  | none =>
    rw [List.find?_eq_none] at hfind
    exact absurd hp (by simpa using hfind x hx)

/-! Claim C1. -/

/-- C1: adding a path that is already present in the library index is a
no-op — the index (hence its length) is unchanged and the id recorded for
that path is the existing one, so calling twice keeps the same id — and
every add preserves the one-entry-per-path invariant. -/
theorem addBookToLibrary_no_duplicate (library : List LibraryEntry) (filePath : String)
    (m : BookMeta) (hmem : ∃ b ∈ library, b.path = filePath) :
    addBookToLibrary library filePath m = library ∧
    (addBookToLibrary library filePath m).length = library.length ∧
    libraryIdFor (addBookToLibrary library filePath m) filePath = libraryIdFor library filePath ∧
    (∀ (lib : List LibraryEntry) (p : String) (m' : BookMeta),
      pathUnique lib → pathUnique (addBookToLibrary lib p m')) := by
  have hsome : ∃ c, library.find? (fun b => b.path == filePath) = some c := by
    obtain ⟨b, hb, hpath⟩ := hmem
    exact find?_isSome_of_mem _ _ b hb (by simp [hpath])
  obtain ⟨c, hc⟩ := hsome
  have hnoop : addBookToLibrary library filePath m = library := by
    simp [addBookToLibrary, hc]
  refine ⟨hnoop, by rw [hnoop], by rw [hnoop], ?_⟩
  intro lib p m' hu
  unfold addBookToLibrary
  cases hfind : lib.find? (fun b => b.path == p) with
  | some b => exact hu
  | none =>
    rw [List.find?_eq_none] at hfind
    refine List.pairwise_cons.mpr ⟨?_, hu⟩
    intro b hb
    have : ¬ (b.path == p) = true := by simpa using hfind b hb
    simp only [newLibraryEntry]
    intro hcontra
    exact this (by simp [← hcontra])

/-- Witness for C1: a concrete library already holding `/books/a.epub`; the
add is a no-op and the recorded id is unchanged. -/
theorem addBookToLibrary_no_duplicate_witness :
    addBookToLibrary [sampleEntryA] "/books/a.epub" sampleMeta = [sampleEntryA] ∧
    (addBookToLibrary [sampleEntryA] "/books/a.epub" sampleMeta).length = [sampleEntryA].length ∧
    libraryIdFor (addBookToLibrary [sampleEntryA] "/books/a.epub" sampleMeta) "/books/a.epub" =
      libraryIdFor [sampleEntryA] "/books/a.epub" ∧
    libraryIdFor [sampleEntryA] "/books/a.epub" = some "isbn123" := by
  have h := addBookToLibrary_no_duplicate [sampleEntryA] "/books/a.epub" sampleMeta
    ⟨sampleEntryA, by simp, by decide⟩
  exact ⟨h.1, h.2.1, h.2.2.1, by decide⟩

/-! Claim C2. -/

/-- C2 counterexample: `onLocationChange` stores
`Math.round(percentage * 100)` with no clamping, so a percentage of `3/2`
stores progress `150`, outside the claimed 0–100 range. -/
theorem onLocationChange_no_clamp_counterexample :
    (onLocationChange [sampleEntryA] "/books/a.epub"
        { cfi := "epubcfi(/6/2!/4/2)", percentage := some (3/2) }).map
      (fun b => b.progress) = [150] ∧
    ¬ ((150 : ℤ) ≤ 100) := by
  constructor
  · have hpath : (sampleEntryA.path == "/books/a.epub") = true := by decide
    simp [onLocationChange, updateFirst, hpath, progressOf]
    norm_num [jsRound]
  · norm_num

/-- C2 (amended): a location-change event with percentage `q` updates the
matching entry's `lastPosition` to the given locator and its `progress` to
`Math.round(q * 100)` — rounded but not clamped; the stored progress lies
within 0–100 whenever the engine-reported percentage lies within `[0, 1]`. -/
theorem onLocationChange_progress (library : List LibraryEntry) (path cfi : String)
    (q : ℚ) (h0 : 0 ≤ q) (h1 : q ≤ 1) :
    (∀ b ∈ onLocationChange library path { cfi := cfi, percentage := some q },
        b ∈ library ∨ (b.lastPosition = some cfi ∧ b.progress = jsRound (q * 100))) ∧
    (0 ≤ jsRound (q * 100) ∧ jsRound (q * 100) ≤ 100) ∧
    ((∃ b ∈ library, b.path = path) →
      ∃ b ∈ onLocationChange library path { cfi := cfi, percentage := some q },
        b.path = path ∧ b.lastPosition = some cfi ∧ b.progress = jsRound (q * 100)) := by
  have hbounds : 0 ≤ jsRound (q * 100) ∧ jsRound (q * 100) ≤ 100 := by
    unfold jsRound
    constructor
    · rw [Int.le_floor]
      push_cast
      linarith
    · have hlt : ⌊q * 100 + 1/2⌋ < 101 := by
        rw [Int.floor_lt]
        push_cast
        linarith
      omega
  refine ⟨?_, hbounds, ?_⟩
  · intro b hb
    unfold onLocationChange at hb
    cases hfind : library.find? (fun x => x.path == path) with
    | none =>
      rw [updateFirst_eq_of_find?_none _ _ _ hfind] at hb
      exact Or.inl hb
    | some c =>
      obtain ⟨l1, l2, hl, _, hu⟩ := updateFirst_decomp
        (fun x => x.path == path)
        (fun x => { x with lastPosition := some cfi, progress := progressOf (some q) })
        library c hfind
      rw [hu] at hb
      rcases List.mem_append.mp hb with hb1 | hb2
      · exact Or.inl (hl ▸ List.mem_append.mpr (Or.inl hb1))
      · rcases List.mem_cons.mp hb2 with rfl | hb3
        · exact Or.inr ⟨rfl, by simp [progressOf]⟩
        · exact Or.inl (hl ▸ List.mem_append.mpr (Or.inr (List.mem_cons_of_mem _ hb3)))
  · rintro ⟨b, hb, hpath⟩
    obtain ⟨c, hc⟩ := find?_isSome_of_mem (fun x => x.path == path) library b hb (by simp [hpath])
    have hcpath : c.path = path := by
      have := List.find?_some hc
      simpa using this
    obtain ⟨l1, l2, _, _, hu⟩ := updateFirst_decomp
      (fun x => x.path == path)
      (fun x => { x with lastPosition := some cfi, progress := progressOf (some q) })
      library c hc
    refine ⟨{ c with lastPosition := some cfi, progress := progressOf (some q) }, ?_, ?_, rfl, ?_⟩
    · unfold onLocationChange
      rw [hu]
      exact List.mem_append.mpr (Or.inr (List.mem_cons_self _ _))
    · exact hcpath
    · simp [progressOf]

/-- Witness for C2: the spec's scenario percentage `0.42` rounds to progress
`42`, inside the 0–100 range. -/
theorem onLocationChange_progress_witness :
    (0 ≤ jsRound ((42/100 : ℚ) * 100) ∧ jsRound ((42/100 : ℚ) * 100) ≤ 100) ∧
    jsRound ((42/100 : ℚ) * 100) = 42 :=
  ⟨(onLocationChange_progress [sampleEntryA] "/books/a.epub"
      "epubcfi(/6/4!/4/2,/1:0,/1:10)" (42/100) (by norm_num) (by norm_num)).2.1,
   by norm_num [jsRound]⟩

/-! Claim C3. -/

/-- C3 counterexample: the open operation `loadBook` rejects an unknown
extension with an unsupported-format error instead of attempting the EPUB
engine; only the add-time classifier falls back to `'epub'`. -/
theorem loadBook_unknown_extension_counterexample :
    loadBook "book.txt" =
      Except.error "Unsupported file format. Only EPUB and PDF files are supported." ∧
    loadBook "book.txt" ≠ Except.ok Engine.epub ∧
    classifyFileType "book.txt" = "epub" := by
  refine ⟨?_, ?_, by decide⟩
  · simp [loadBook, extensionOf, jsToLowerCase, splitDots]
  · simp [loadBook, extensionOf, jsToLowerCase, splitDots]

/-- C3 (amended): the extension is taken case-insensitively from the path;
`addBookToLibrary`'s classifier maps `pdf` to the PDF type and every other
extension to the EPUB type, but the open dispatch `loadBook` accepts only
the extensions `pdf` and `epub` and rejects every other extension with an
unsupported-format error rather than attempting the EPUB engine. -/
theorem loadBook_classification (filePath : String) :
    (extensionOf filePath = "pdf" →
        loadBook filePath = Except.ok Engine.pdf ∧ classifyFileType filePath = "pdf") ∧
    (extensionOf filePath = "epub" → loadBook filePath = Except.ok Engine.epub) ∧
    (extensionOf filePath ≠ "pdf" → classifyFileType filePath = "epub") ∧
    (extensionOf filePath ≠ "pdf" → extensionOf filePath ≠ "epub" →
        loadBook filePath =
          Except.error "Unsupported file format. Only EPUB and PDF files are supported.") := by
  refine ⟨?_, ?_, ?_, ?_⟩
  · intro h
    constructor
    · simp [loadBook, h]
    · simp [classifyFileType, h]
  · intro h
    have hne : extensionOf filePath ≠ "pdf" := by rw [h]; decide
    simp [loadBook, h, hne]
  · intro h
    simp [classifyFileType, h]
  · intro h1 h2
    simp [loadBook, h1, h2]

/-- Witness for C3 (amended): concrete paths exercising all branches,
including case-insensitivity. -/
theorem loadBook_classification_witness :
    (loadBook "Book.PDF" = Except.ok Engine.pdf ∧ classifyFileType "Book.PDF" = "pdf") ∧
    loadBook "novel.EPuB" = Except.ok Engine.epub ∧
    classifyFileType "paper.txt" = "epub" ∧
    loadBook "paper.txt" =
      Except.error "Unsupported file format. Only EPUB and PDF files are supported." :=
  ⟨(loadBook_classification "Book.PDF").1 (by decide),
   (loadBook_classification "novel.EPuB").2.1 (by decide),
   (loadBook_classification "paper.txt").2.2.1 (by decide),
   (loadBook_classification "paper.txt").2.2.2 (by decide) (by decide)⟩

/-! Claim C4. -/

/-- C4 counterexample: the source replaces every single non-alphanumeric
character with its own separator (`/[^a-zA-Z0-9]/g` has no `+`), so the two
adjacent non-alphanumerics in `"A, B"` yield two separators, not the one the
spec's run-collapsing description predicts. -/
theorem slugId_run_collapse_counterexample :
    slugId "A, B" "C" = "a--b-c" ∧ specSlug "A, B" "C" = "a-b-c" ∧
    slugId "A, B" "C" ≠ specSlug "A, B" "C" := by
  refine ⟨by decide, by decide, by decide⟩

/-- C4 (amended): the fallback slug lowercases and replaces every single
non-alphanumeric character with one separator — it equals the per-character
map over the title-separator-author string, and in particular its length is
`title.length + 1 + author.length` (adjacent non-alphanumerics give adjacent
separators, never one). The fallback identifier in `generateBookIdentifier`
is exactly this slug of the (defaulted) title and author. -/
theorem slugId_per_char (title author : String) :
    slugId title author =
      String.mk ((title ++ "-" ++ author).data.map
        (fun c => if c.isAlphanum then c.toLower else '-')) ∧
    (slugId title author).length = title.length + 1 + author.length ∧
    (∀ (now : ℕ), generateBookIdentifier (some ⟨none, some title, some author⟩) now =
        slugId (jsOrStr title "unknown") (jsOrStr author "unknown")) := by
  have hfun : ∀ c : Char,
      Char.toLower (if c.isAlphanum then c else '-') =
        (if c.isAlphanum then c.toLower else '-') := by
    intro c
    by_cases hc : c.isAlphanum
    · simp [hc]
    · simp [hc]
  have h1 : slugId title author =
      String.mk ((title ++ "-" ++ author).data.map
        (fun c => if c.isAlphanum then c.toLower else '-')) := by
    unfold slugId jsToLowerCase jsReplaceNonAlnum
    simp only [List.map_map]
    have hcomp : (Char.toLower ∘ fun c => if c.isAlphanum then c else '-') =
        (fun c : Char => if c.isAlphanum then c.toLower else '-') := funext hfun
    rw [hcomp]
  refine ⟨h1, ?_, ?_⟩
  · rw [h1]
    show ((title ++ "-" ++ author).data.map
      (fun c => if c.isAlphanum then c.toLower else '-')).length = _
    rw [List.length_map]
    show (title ++ "-" ++ author).length = _
    rw [String.length_append, String.length_append]
    rfl
  · intro now
    simp [generateBookIdentifier, jsTruthyStr, jsOrOptStr]

/-! Claim C6. -/

/-- C6: on the success path (metadata extracted), `generateBookIdentifier`
is a function of the document metadata alone — the `Date.now()` value is
only reachable from the failure branch, so resolving twice from identical
metadata yields the identical identifier. -/
theorem generateBookIdentifier_deterministic (md : EpubMetadata) (now1 now2 : ℕ) :
    generateBookIdentifier (some md) now1 = generateBookIdentifier (some md) now2 := rfl

/-! Claim C7. -/

/-- Filtering away one id equals erasing its unique record when ids are
unique in the set. -/
theorem filter_id_ne_eq_erase (hid : String) :
    ∀ (l : List Highlight) (h : Highlight), h ∈ l → h.id = hid →
      (l.map (fun x => x.id)).Nodup →
      l.filter (fun x => x.id != hid) = l.erase h := by
  intro l
  induction l with
  | nil => intro h hmem _ _; cases hmem
  | cons a l ih =>
    intro h hmem hh hnodup
    rw [List.map_cons, List.nodup_cons] at hnodup
    rcases List.mem_cons.mp hmem with rfl | hmem'
    · rw [List.erase_cons_head]
      rw [List.filter_cons_of_neg (by simp [hh])]
      apply List.filter_eq_self.mpr
      intro x hx
      simp only [bne_iff_ne, ne_eq]
      intro hx2
      exact hnodup.1 (by rw [hh, ← hx2]; exact List.mem_map_of_mem _ hx)
    · have hane : a.id ≠ hid := by
        intro h2
        exact hnodup.1 (by rw [h2, ← hh]; exact List.mem_map_of_mem _ hmem')
      have haneq : ¬ (a == h) = true := by
        intro h3
        exact hane ((eq_of_beq h3) ▸ hh)
      rw [List.erase_cons_tail (by simpa using haneq)]
      rw [List.filter_cons_of_pos (by simp [hane])]
      rw [ih h hmem' hh hnodup.2]

/-- C7: deleting a highlight by an id absent from the set leaves the set
unchanged yet still invokes full-set persistence; deleting by a present id
(ids are unique within the set) removes exactly that record and invokes
full-set persistence with the new set. The operation is a total function —
no error is raised. -/
theorem deleteHighlight_spec (st : HighlightsState) (hid : String)
    (hnodup : (st.highlights.map (fun h => h.id)).Nodup) :
    ((∀ h ∈ st.highlights, h.id ≠ hid) →
        (deleteHighlight st hid).highlights = st.highlights ∧
        (deleteHighlight st hid).saves = st.highlights :: st.saves) ∧
    (∀ h ∈ st.highlights, h.id = hid →
        (deleteHighlight st hid).highlights = st.highlights.erase h ∧
        (deleteHighlight st hid).saves = st.highlights.erase h :: st.saves) := by
  constructor
  · intro habs
    have hfilter : st.highlights.filter (fun h => h.id != hid) = st.highlights :=
      List.filter_eq_self.mpr (fun h hh => by simpa using habs h hh)
    exact ⟨by simp [deleteHighlight, hfilter], by simp [deleteHighlight, hfilter]⟩
  · intro h hmem hh
    have herase := filter_id_ne_eq_erase hid st.highlights h hmem hh hnodup
    exact ⟨by simp [deleteHighlight, herase], by simp [deleteHighlight, herase]⟩

/-- Witness for C7: deleting an absent id from a one-highlight set is a
data no-op that still persists; deleting the present id empties the set. -/
theorem deleteHighlight_spec_witness :
    (deleteHighlight ⟨[sampleHighlight], []⟩ "absent-id").highlights = [sampleHighlight] ∧
    (deleteHighlight ⟨[sampleHighlight], []⟩ "absent-id").saves = [[sampleHighlight]] ∧
    (deleteHighlight ⟨[sampleHighlight], []⟩ "1700000000000").highlights =
      [sampleHighlight].erase sampleHighlight ∧
    [sampleHighlight].erase sampleHighlight = [] := by
  have h1 := (deleteHighlight_spec ⟨[sampleHighlight], []⟩ "absent-id" (by decide)).1
    (by decide)
  have h2 := (deleteHighlight_spec ⟨[sampleHighlight], []⟩ "1700000000000" (by decide)).2
    sampleHighlight (List.mem_singleton_self _) (by decide)
  exact ⟨h1.1, h1.2, h2.1, by decide⟩

/-! Claim C8. -/

/-- Filtering by a predicate implied by the search predicate does not change
`find?`. -/
theorem find?_filter_eq {β : Type} (q p : β → Bool) (l : List β)
    (hpq : ∀ x, p x = true → q x = true) :
    (l.filter q).find? p = l.find? p := by
  induction l with
  | nil => rfl
  | cons a l ih =>
    cases hq : q a with
    | true =>
      rw [List.filter_cons_of_pos hq]
      cases hp : p a with
      | true => simp [List.find?, hp]
      | false => simp [List.find?, hp, ih]
    | false =>
      have hp : p a = false := by
        cases hpa : p a with
        | false => rfl
        | true => rw [hpq a hpa] at hq; cases hq
      rw [List.filter_cons_of_neg (by simp [hq])]
      simp [List.find?, hp, ih]

/-- Entry search in a spread merge: the stored object is consulted first,
the defaults second. -/
theorem find?_spreadMerge {α : Type} (d s : List (String × α)) (k : String) :
    (spreadMerge d s).find? (fun p => p.1 == k) =
      ((s.find? (fun p => p.1 == k)).orElse (fun _ => d.find? (fun p => p.1 == k))) := by
  unfold spreadMerge
  rw [List.find?_append]
  cases hs : s.find? (fun p => p.1 == k) with
  | some y =>
    have hnone : (d.filter (fun p => (jsLookup s p.1).isNone)).find?
        (fun p => p.1 == k) = none := by
      rw [List.find?_eq_none]
      intro x hx hpx
      have hxk : x.1 = k := by simpa using hpx
      have hq := (List.mem_filter.mp hx).2
      rw [hxk] at hq
      simp [jsLookup, hs] at hq
    rw [hnone]
    simp [Option.orElse]
  | none =>
    have heq : (d.filter (fun p => (jsLookup s p.1).isNone)).find?
        (fun p => p.1 == k) = d.find? (fun p => p.1 == k) := by
      apply find?_filter_eq
      intro x hpx
      have hxk : x.1 = k := by simpa using hpx
      simp [jsLookup, hxk, hs]
    rw [heq]
    cases hd : d.find? (fun p => p.1 == k) <;> simp [Option.orElse]

/-- Lookup in a spread merge: the stored value wins, the default is the
fallback. -/
theorem jsLookup_spreadMerge {α : Type} (d s : List (String × α)) (k : String) :
    jsLookup (spreadMerge d s) k = ((jsLookup s k).orElse (fun _ => jsLookup d k)) := by
  unfold jsLookup
  rw [find?_spreadMerge]
  cases hs : s.find? (fun p => p.1 == k) <;> simp [Option.orElse]

/-- C8: loading settings merges defaults with the stored object — the stored
value wins for every key defined in both, keys defined only in the defaults
keep the default value, keys present only in the stored object are retained
(first conjunct with a stored-only key), and a load failure returns the
defaults (`settingsLoad` is total, so no exception escapes). -/
theorem settingsLoad_merge {α : Type} (defaults saved : List (String × α))
    (k : String) (v : α) :
    (jsLookup saved k = some v →
        jsLookup (settingsLoad defaults (Except.ok (some saved))) k = some v) ∧
    (jsLookup saved k = none →
        jsLookup (settingsLoad defaults (Except.ok (some saved))) k = jsLookup defaults k) ∧
    settingsLoad defaults (Except.error ()) = defaults := by
  refine ⟨?_, ?_, rfl⟩
  · intro hv
    show jsLookup (spreadMerge defaults saved) k = some v
    rw [jsLookup_spreadMerge, hv]
    rfl
  · intro hv
    show jsLookup (spreadMerge defaults saved) k = jsLookup defaults k
    rw [jsLookup_spreadMerge, hv]
    rfl

/-- Witness for C8: concrete defaults and stored object — shared key takes
the stored value, defaults-only key keeps its default, stored-only key is
retained, failure returns the defaults. -/
theorem settingsLoad_merge_witness :
    jsLookup (settingsLoad [("fontSize", (18:ℕ)), ("theme", 1)]
      (Except.ok (some [("fontSize", 20), ("custom", 7)]))) "fontSize" = some 20 ∧
    jsLookup (settingsLoad [("fontSize", (18:ℕ)), ("theme", 1)]
      (Except.ok (some [("fontSize", 20), ("custom", 7)]))) "theme" =
      jsLookup [("fontSize", (18:ℕ)), ("theme", 1)] "theme" ∧
    jsLookup [("fontSize", (18:ℕ)), ("theme", 1)] "theme" = some 1 ∧
    jsLookup (settingsLoad [("fontSize", (18:ℕ)), ("theme", 1)]
      (Except.ok (some [("fontSize", 20), ("custom", 7)]))) "custom" = some 7 ∧
    settingsLoad [("fontSize", (18:ℕ)), ("theme", 1)] (Except.error ()) =
      [("fontSize", 18), ("theme", 1)] :=
  ⟨(settingsLoad_merge [("fontSize", (18:ℕ)), ("theme", 1)]
      [("fontSize", 20), ("custom", 7)] "fontSize" 20).1 (by decide),
   (settingsLoad_merge [("fontSize", (18:ℕ)), ("theme", 1)]
      [("fontSize", 20), ("custom", 7)] "theme" 0).2.1 (by decide),
   by decide,
   (settingsLoad_merge [("fontSize", (18:ℕ)), ("theme", 1)]
      [("fontSize", 20), ("custom", 7)] "custom" 7).1 (by decide),
   (settingsLoad_merge [("fontSize", (18:ℕ)), ("theme", 1)]
      [("fontSize", 20), ("custom", 7)] "x" 0).2.2⟩

/-! Claim C9. -/

/-- C9: resuming a PDF library entry whose `lastPosition` parses to a page
`p` with `1 ≤ p ≤ totalPages` navigates the engine to page `p`; when
`lastPosition` does not parse to an integer at least 1 (no leading digits,
or a value below 1, or a missing position) the viewer stays at page 1, the
page `loadPDF` rendered. -/
theorem resumePdfPage_spec (lp : String) (totalPages : ℕ) (p : ℤ)
    (hp : jsParseInt lp = some p) :
    (1 ≤ p → p ≤ (totalPages : ℤ) → resumePdfPage (some lp) totalPages = p.toNat) ∧
    (p < 1 → resumePdfPage (some lp) totalPages = 1) ∧
    (∀ s : String, jsParseInt s = none → resumePdfPage (some s) totalPages = 1) ∧
    resumePdfPage none totalPages = 1 := by
  have hlp : ¬ lp = "" := by
    intro h
    rw [h] at hp
    simp [jsParseInt] at hp
  refine ⟨?_, ?_, ?_, rfl⟩
  · intro h1 h2
    have h0 : 0 < p := by omega
    simp [resumePdfPage, hlp, hp, h0, goToPage, h1, h2]
  · intro h1
    have h0 : ¬ 0 < p := by omega
    simp [resumePdfPage, hlp, hp, h0]
  · intro s hs
    by_cases hse : s = ""
    · simp [resumePdfPage, hse]
    · simp [resumePdfPage, hse, hs]

/-- Witness for C9: the spec's scenario — `lastPosition='5'` with
`totalPages=10` resumes at page 5, not page 1; a page below 1 or an
EPUB-style locator falls back to page 1. -/
theorem resumePdfPage_spec_witness :
    resumePdfPage (some "5") 10 = (5:ℤ).toNat ∧ (5:ℤ).toNat = 5 ∧
    resumePdfPage (some "0") 10 = 1 ∧
    resumePdfPage (some "epubcfi(/6/4!/4/2,/1:0,/1:10)") 10 = 1 :=
  ⟨(resumePdfPage_spec "5" 10 5 (by decide)).1 (by decide) (by decide),
   by decide,
   (resumePdfPage_spec "0" 10 0 (by decide)).2.1 (by decide),
   (resumePdfPage_spec "5" 10 5 (by decide)).2.2.1 "epubcfi(/6/4!/4/2,/1:0,/1:10)"
     (by decide)⟩

/-! Claim C10. -/

/-- C10: saving an edited book overwrites the found entry's title and author
with the dialog inputs, replacing an empty title by `'Unknown Title'` and an
empty author by `'Unknown Author'`; the stored fields are never the empty
string, the other entries are untouched, and the index is persisted
immediately. -/
theorem saveEditedBook_defaults (library : List LibraryEntry) (bid ti ai : String)
    (b : LibraryEntry) (hfind : library.find? (fun x => x.id == bid) = some b) :
    ∃ l1 l2, library = l1 ++ b :: l2 ∧
      (saveEditedBook library (some bid) ti ai).1 =
        l1 ++ { b with title := jsOrStr ti "Unknown Title",
                       author := jsOrStr ai "Unknown Author" } :: l2 ∧
      (saveEditedBook library (some bid) ti ai).2 = true ∧
      jsOrStr ti "Unknown Title" ≠ "" ∧ jsOrStr ai "Unknown Author" ≠ "" ∧
      (ti = "" → jsOrStr ti "Unknown Title" = "Unknown Title") ∧
      (ai = "" → jsOrStr ai "Unknown Author" = "Unknown Author") := by
  obtain ⟨l1, l2, hl, _, hu⟩ := updateFirst_decomp (fun x => x.id == bid)
    (fun x => { x with title := jsOrStr ti "Unknown Title",
                       author := jsOrStr ai "Unknown Author" }) library b hfind
  refine ⟨l1, l2, hl, ?_, ?_, ?_, ?_, ?_, ?_⟩
  · simp [saveEditedBook, hfind, hu]
  · simp [saveEditedBook, hfind]
  · by_cases h : ti = ""
    · rw [h]; decide
    · simp [jsOrStr, h]
  · by_cases h : ai = ""
    · rw [h]; decide
    · simp [jsOrStr, h]
  · intro h; simp [jsOrStr, h]
  · intro h; simp [jsOrStr, h]

/-- Witness for C10: editing with empty title and author inputs stores the
`Unknown` defaults and persists. -/
theorem saveEditedBook_defaults_witness :
    (saveEditedBook [sampleEntryA] (some "isbn123") "" "").2 = true ∧
    jsOrStr "" "Unknown Title" = "Unknown Title" ∧
    jsOrStr "" "Unknown Author" = "Unknown Author" ∧
    jsOrStr "" "Unknown Title" ≠ "" ∧
    (saveEditedBook [sampleEntryA] (some "isbn123") "" "").1 =
      [{ sampleEntryA with title := "Unknown Title", author := "Unknown Author" }] := by
  obtain ⟨l1, l2, hl, hres, hsave, ht, ha, hti, hai⟩ :=
    saveEditedBook_defaults [sampleEntryA] "isbn123" "" "" sampleEntryA (by decide)
  exact ⟨hsave, hti rfl, hai rfl, ht, by decide⟩

/-! Claim C5. -/

/-- A state whose timer is absent or not yet due is left alone by the
event-loop timer check. -/
theorem fireIfDue_not_due {σ : Type} (t : ℕ) (s : DebounceState σ)
    (hd : s.deadline = none ∨ ∃ d, s.deadline = some d ∧ t < d) :
    fireIfDue t s = s := by
  rcases hd with hnone | ⟨d, hsome, hlt⟩
  · simp [fireIfDue, hnone]
  · simp only [fireIfDue, hsome]
    rw [if_neg (by omega)]

/-- Folding a chain of events whose gaps are all shorter than the quiet
window over a state with no due timer: no intermediate timer ever fires
(hence no intermediate write), the updates accumulate in order, and the
pending deadline ends up one quiet window after the last event. -/
theorem foldl_recordEvent {σ : Type} (quiet : ℕ) :
    ∀ (rest : List (ℕ × (σ → σ))) (e : ℕ × (σ → σ)) (s : DebounceState σ),
      List.Chain' (fun a b => a.1 ≤ b.1 ∧ b.1 < a.1 + quiet) (e :: rest) →
      (s.deadline = none ∨ ∃ d, s.deadline = some d ∧ e.1 < d) →
      (e :: rest).foldl (fun st ev => recordEvent quiet ev.1 ev.2 st) s =
        { lib := (e :: rest).foldl (fun a ev => ev.2 a) s.lib,
          deadline := some ((rest.getLastD e).1 + quiet),
          writes := s.writes } := by
  intro rest
  induction rest with
  | nil =>
    intro e s _ hd
    simp [List.foldl_cons, List.foldl_nil, recordEvent, fireIfDue_not_due e.1 s hd]
  | cons e' rest ih =>
    intro e s hchain hd
    have hs1 : recordEvent quiet e.1 e.2 s =
        ⟨e.2 s.lib, some (e.1 + quiet), s.writes⟩ := by
      simp [recordEvent, fireIfDue_not_due e.1 s hd]
    have hrel := (List.chain'_cons.mp hchain).1
    have hchain' := (List.chain'_cons.mp hchain).2
    have hnext := ih e' ⟨e.2 s.lib, some (e.1 + quiet), s.writes⟩ hchain'
      (Or.inr ⟨e.1 + quiet, rfl, hrel.2⟩)
    rw [List.foldl_cons, hs1, hnext]
    simp only [List.foldl_cons]
    cases rest with
    | nil => simp
    | cons r rs =>
      have hgl : ∀ (d1 d2 a : ℕ × (σ → σ)) (l : List (ℕ × (σ → σ))),
          ((a :: l).getLast?.getD d1) = ((a :: l).getLast?.getD d2) := by
        intro d1 d2 a l
        induction l generalizing a with
        | nil => rfl
        | cons y ys ihy => simpa [List.getLast?_cons_cons] using ihy y
      simp [List.getLast?_cons_cons]
      exact congrArg Prod.fst (hgl e' e r rs)

/-- C5: a burst of location-change events for the same open book, each
arriving within the 2-second quiet window of its predecessor, is coalesced
by the debounce: no intermediate write happens, and once the window elapses
after the final event exactly one `saveLibrary` write occurs, carrying the
library state that reflects every update of the burst — the state produced
by the last event. -/
theorem locationBurst_coalesce (path : String) (s0 : List LibraryEntry)
    (e : ℕ × LocationStart) (rest : List (ℕ × LocationStart))
    (hchain : List.Chain' (fun a b => a.1 ≤ b.1 ∧ b.1 < a.1 + 2000) (e :: rest)) :
    (locationBurst path s0 (e :: rest)).writes =
      [(e :: rest).foldl (fun lib ev => onLocationChange lib path ev.2) s0] ∧
    (locationBurst path s0 (e :: rest)).lib =
      (e :: rest).foldl (fun lib ev => onLocationChange lib path ev.2) s0 := by
  have hch : List.Chain' (fun a b => a.1 ≤ b.1 ∧ b.1 < a.1 + 2000)
      ((e.1, fun lib => onLocationChange lib path e.2) ::
        rest.map (fun ev => (ev.1, fun lib => onLocationChange lib path ev.2))) := by
    have hmap : (e.1, fun lib => onLocationChange lib path e.2) ::
        rest.map (fun ev => (ev.1, fun lib => onLocationChange lib path ev.2)) =
        (e :: rest).map (fun ev => (ev.1, fun lib => onLocationChange lib path ev.2)) := rfl
    rw [hmap, List.chain'_map]
    exact hchain
  have hfold := foldl_recordEvent 2000
    (rest.map (fun ev => (ev.1, fun lib => onLocationChange lib path ev.2)))
    (e.1, fun lib => onLocationChange lib path e.2)
    ⟨s0, none, []⟩ hch (Or.inl rfl)
  have hconv : (e :: rest).map (fun ev => (ev.1, fun lib => onLocationChange lib path ev.2)) =
      (e.1, fun lib => onLocationChange lib path e.2) ::
        rest.map (fun ev => (ev.1, fun lib => onLocationChange lib path ev.2)) := rfl
  have hL : ((e.1, fun lib => onLocationChange lib path e.2) ::
      rest.map (fun ev => (ev.1, fun lib => onLocationChange lib path ev.2))).foldl
      (fun (a : List LibraryEntry) ev => ev.2 a) s0 =
      (e :: rest).foldl (fun lib ev => onLocationChange lib path ev.2) s0 := by
    rw [← hconv, List.foldl_map]
  simp only [locationBurst, runBurst, hconv, hfold]
  exact ⟨by rw [hL], hL⟩

/-- Witness for C5: two events 1.5 s apart (inside the 2 s window) produce a
single write carrying the state of the second event. -/
theorem locationBurst_coalesce_witness :
    (locationBurst "/books/a.epub" [sampleEntryA]
        [(0, { cfi := "cfi1", percentage := some (1/4) }),
         (1500, { cfi := "cfi2", percentage := some (1/2) })]).writes =
      [[(0, ({ cfi := "cfi1", percentage := some (1/4) } : LocationStart)),
        (1500, { cfi := "cfi2", percentage := some (1/2) })].foldl
          (fun lib ev => onLocationChange lib "/books/a.epub" ev.2) [sampleEntryA]] ∧
    [(0, ({ cfi := "cfi1", percentage := some (1/4) } : LocationStart)),
        (1500, { cfi := "cfi2", percentage := some (1/2) })].foldl
          (fun lib ev => onLocationChange lib "/books/a.epub" ev.2) [sampleEntryA] =
      [{ sampleEntryA with lastPosition := some "cfi2", progress := 50 }] := by
  constructor
  · exact (locationBurst_coalesce "/books/a.epub" [sampleEntryA]
      (0, { cfi := "cfi1", percentage := some (1/4) })
      [(1500, { cfi := "cfi2", percentage := some (1/2) })]
      (by simp [List.chain'_cons])).1
  · have hpath : (sampleEntryA.path == "/books/a.epub") = true := by decide
    have step1 : onLocationChange [sampleEntryA] "/books/a.epub"
        { cfi := "cfi1", percentage := some (1/4) } =
        [{ sampleEntryA with lastPosition := some "cfi1", progress := 25 }] := by
      simp [onLocationChange, updateFirst, hpath, progressOf]
      norm_num [jsRound]
    have hpath2 : (({ sampleEntryA with lastPosition := some "cfi1", progress := 25 } : LibraryEntry).path == "/books/a.epub") = true := by decide
    have step2 : onLocationChange
        [{ sampleEntryA with lastPosition := some "cfi1", progress := 25 }] "/books/a.epub"
        { cfi := "cfi2", percentage := some (1/2) } =
        [{ sampleEntryA with lastPosition := some "cfi2", progress := 50 }] := by
      simp [onLocationChange, updateFirst, hpath2, progressOf]
      norm_num [jsRound]
    simp only [List.foldl_cons, List.foldl_nil]
    rw [step1, step2]

end LapBook
